import Mathlib

/-!
Shallow embedding of the stellarAid-contract resilience layer
(crates/tools: horizon_error.rs, horizon_retry.rs, horizon_client/cache.rs,
fee/{calculator,cache,history,surge_pricing,service}.rs) together with
theorems settling the frozen specification claims.

Modelling conventions:
* Rust `Duration` values are modelled by their millisecond count (`Nat`),
  matching the code, which converts via `as_millis()` before computing.
* `f64` arithmetic is modelled by exact rational arithmetic (`ℚ`); the
  `as u64` / `as i64` casts of non-negative values are `Nat.floor`.
* `chrono` timestamps are modelled as integer seconds (`ℤ`), matching the
  code's use of `num_seconds()`.
* `i64` values are `ℤ`; where the code uses `checked_mul`, the model checks
  the i64 range explicitly.
* Fallible Rust functions returning `Result` become `Except`; a Rust panic
  (the `% 0` in the jitter path) becomes `Option.none`.
-/

set_option maxHeartbeats 1000000

namespace StellarAid

/-- The `HorizonError` from horizon_error.rs.  Payload strings/numbers kept;
`Timeout`/`RateLimited` durations modelled in milliseconds. -/
inductive HorizonError where
  | NetworkError (msg : String)
  | HttpError (status : Nat) (message : String)
  | Timeout (duration_ms : Nat)
  | RateLimited (retry_after_ms : Nat)
  | InvalidRequest (msg : String)
  | InvalidResponse (msg : String)
  | ServerError (status : Nat) (message : String)
  | NotFound (msg : String)
  | BadRequest (msg : String)
  | Unauthorized (msg : String)
  | Forbidden (msg : String)
  | ConnectionRefused (msg : String)
  | ConnectionReset (msg : String)
  | DnsError (msg : String)
  | TlsError (msg : String)
  | ServiceUnavailable (msg : String)
  | CacheError (msg : String)
  | InvalidConfig (msg : String)
  | JsonError (msg : String)
  | UrlError (msg : String)
  | Other (msg : String)
deriving Repr, DecidableEq

namespace HorizonError

/-- The `HorizonError::is_retryable` from horizon_error.rs. -/
def is_retryable : HorizonError → Bool
  | NetworkError _ => true
  | Timeout _ => true
  | RateLimited _ => true
  | ConnectionRefused _ => true
  | ConnectionReset _ => true
  | ServerError _ _ => true
  | ServiceUnavailable _ => true
  | DnsError _ => true
  | _ => false

/-- The `HorizonError::is_server_error` from horizon_error.rs. -/
def is_server_error : HorizonError → Bool
  | ServerError _ _ => true
  | ServiceUnavailable _ => true
  | _ => false

end HorizonError

/-- The `RetryConfig` from horizon_retry.rs; backoff durations in milliseconds,
the f64 multiplier as an exact rational. -/
structure RetryConfig where
  max_attempts : Nat
  initial_backoff : Nat
  max_backoff : Nat
  backoff_multiplier : ℚ
  use_jitter : Bool
deriving Repr

/-- The `RetryConfig::default` (3 attempts, 100 ms initial, 30 s cap, 2.0, jitter). -/
def RetryConfig.default : RetryConfig :=
  { max_attempts := 3
    initial_backoff := 100
    max_backoff := 30000
    backoff_multiplier := 2
    use_jitter := true }

/-- The `RetryPolicy` from horizon_retry.rs. -/
inductive RetryPolicy where
  | TransientOnly
  | TransientAndServerErrors
  | AllRetryable
  | NoRetry
deriving Repr, DecidableEq

/-- The `RetryPolicy::should_retry` from horizon_retry.rs (the
`TransientAndServerErrors` arm is transcribed verbatim, including the
redundant disjunction present in the source). -/
def RetryPolicy.should_retry (p : RetryPolicy) (error : HorizonError) : Bool :=
  match p with
  | .NoRetry => false
  | .TransientOnly =>
    match error with
    | .NetworkError _ => true
    | .Timeout _ => true
    | .ConnectionRefused _ => true
    | .ConnectionReset _ => true
    | .DnsError _ => true
    | _ => false
  | .TransientAndServerErrors =>
    error.is_retryable && (error.is_retryable || error.is_server_error)
  | .AllRetryable => error.is_retryable

/-- Spec-side set (§4.2/§7): the transient error kinds
{NetworkError, Timeout, ConnectionRefused, ConnectionReset, DnsError}. -/
def transientSpecSet : HorizonError → Bool
  | .NetworkError _ => true
  | .Timeout _ => true
  | .ConnectionRefused _ => true
  | .ConnectionReset _ => true
  | .DnsError _ => true
  | _ => false

/-- Spec-side set (§4.2/§7): the server-class retryable kinds
{ServerError, ServiceUnavailable, RateLimited}. -/
def serverSpecSet : HorizonError → Bool
  | .ServerError _ _ => true
  | .ServiceUnavailable _ => true
  | .RateLimited _ => true
  | _ => false

/-- The capped exponential backoff of horizon_retry.rs, line by line:
`exp_backoff = initial_backoff_ms * multiplier^(attempt-1)` (f64, modelled
exactly in ℚ), then `duration_ms = exp_backoff.min(max_backoff_ms) as u64`
(truncation of a non-negative value = `Nat.floor`). -/
def cappedBackoff (attempt : Nat) (config : RetryConfig) : Nat :=
  let exp_backoff : ℚ :=
    (config.initial_backoff : ℚ) * config.backoff_multiplier ^ (attempt - 1)
  ⌊min exp_backoff (config.max_backoff : ℚ)⌋₊

/-- The `calculate_backoff` from horizon_retry.rs, result in milliseconds.
The random `u64` drawn inside the jitter branch is passed in as `rand`.
`none` models the Rust panic: when `use_jitter` holds and
`jitter_amount = (backoff_ms * 0.1) as u64` is zero, the source evaluates
`rand::random::<u64>() % (jitter_amount * 2)`, a remainder by zero. -/
def calculate_backoff (attempt : Nat) (config : RetryConfig) (rand : Nat) :
    Option Nat :=
  if attempt = 0 then some 0
  else
    let backoff := cappedBackoff attempt config
    if config.use_jitter then
      let jitter_amount : Nat := ⌊(backoff : ℚ) * (1 / 10)⌋₊
      if jitter_amount * 2 = 0 then none
      else
        let jitter := rand % (jitter_amount * 2)
        some (((backoff : ℤ) - (jitter_amount : ℤ) + (jitter : ℤ)).toNat)
    else some backoff

/-- The retry loop of `retry_with_backoff` (horizon_retry.rs).  `op i` is the
result of the `(i+1)`-th invocation of the operation; `made` counts the
invocations already performed (the source's `attempt` is `made + 1`);
`errors` accumulates every observed error, as the source's `errors` vector
does.  Returns the loop's result together with the total invocation count.
The sleeps between attempts do not affect the returned value and are elided. -/
def retryGo (maxAttempts : Nat) (policy : RetryPolicy)
    (op : Nat → Except HorizonError α) (made : Nat)
    (errors : List HorizonError) : Except HorizonError α × Nat :=
  if _h : made < maxAttempts then
    match op made with
    | .ok result => (.ok result, made + 1)
    | .error e =>
      let errors := errors ++ [e]
      if ¬ policy.should_retry e then (.error e, made + 1)
      else if made + 1 ≥ maxAttempts then (.error e, made + 1)
      else retryGo maxAttempts policy op (made + 1) errors
  else
    (.error (errors.getLast?.getD (.Other "Unknown retry error")), made)
termination_by maxAttempts - made

/-- The `retry_with_backoff` from horizon_retry.rs: run the loop from the first
attempt with an empty error vector. -/
def retry_with_backoff (config : RetryConfig) (policy : RetryPolicy)
    (op : Nat → Except HorizonError α) : Except HorizonError α × Nat :=
  retryGo config.max_attempts policy op 0 []

/-- The `FeeError` from fee/error.rs (variants the modelled paths can produce). -/
inductive FeeError where
  | HorizonUnavailable (msg : String)
  | InvalidFeeValue (msg : String)
  | CurrencyConversionFailed (msg : String)
  | InvalidCurrency (msg : String)
  | CacheUnavailable (msg : String)
  | InvalidOperationCount (msg : String)
  | NetworkError (msg : String)
  | ParseError (msg : String)
  | InvalidConfig (msg : String)
  | Timeout
  | Other (msg : String)
deriving Repr, DecidableEq

/-- The `FeeRecord` from fee/history.rs; the `Utc::now()` timestamp is made an
explicit argument of the constructors (integer seconds). -/
structure FeeRecord where
  base_fee_stroops : ℤ
  timestamp : ℤ
  source : String
deriving Repr, DecidableEq

/-- The `FeeRecord::new` from fee/history.rs: rejects negative fees. -/
def FeeRecord.new (base_fee_stroops : ℤ) (source : String) (now : ℤ) :
    Except FeeError FeeRecord :=
  if base_fee_stroops < 0 then
    .error (.InvalidFeeValue "base_fee_stroops cannot be negative")
  else
    .ok { base_fee_stroops, timestamp := now, source }

/-- The `FeeStats` from fee/history.rs.  The source stores
`std_dev = variance.sqrt()`; the model stores the variance itself
(`std_dev_sq`), which determines the stored value as its square root. -/
structure FeeStats where
  min_fee : ℤ
  max_fee : ℤ
  avg_fee : ℚ
  median_fee : ℤ
  std_dev_sq : ℚ
  total_records : Nat
deriving Repr, DecidableEq

/-- The `FeeStats::calculate` from fee/history.rs.  `sort_unstable`
becomes `List.insertionSort`; `unwrap` on the min/max of the non-empty
list becomes `getD 0`; i64 division `/ 2` is `Int.div` (truncation). -/
def FeeStats.calculate (records : List FeeRecord) : Option FeeStats :=
  if records.isEmpty then none
  else
    let fees : List ℤ := records.map (·.base_fee_stroops)
    let min_fee : ℤ := (fees.min?).getD 0
    let max_fee : ℤ := (fees.max?).getD 0
    let sum : ℤ := fees.sum
    let avg_fee : ℚ := (sum : ℚ) / (fees.length : ℚ)
    let sorted := fees.insertionSort (· ≤ ·)
    let median_fee : ℤ :=
      if sorted.length % 2 = 0 then
        Int.tdiv (sorted.getD (sorted.length / 2 - 1) 0
                  + sorted.getD (sorted.length / 2) 0) 2
      else sorted.getD (sorted.length / 2) 0
    let variance : ℚ :=
      (fees.map (fun f => ((f : ℚ) - avg_fee) * ((f : ℚ) - avg_fee))).sum
        / (fees.length : ℚ)
    some { min_fee, max_fee, avg_fee, median_fee,
           std_dev_sq := variance, total_records := fees.length }

/-- The `FeeHistory` from fee/history.rs. -/
structure FeeHistory where
  records : List FeeRecord
  max_records : Nat
deriving Repr, DecidableEq

/-- The `FeeHistory::new`. -/
def FeeHistory.new (max_records : Nat) : FeeHistory :=
  { records := [], max_records }

/-- The `FeeHistory::add` from fee/history.rs: build the record (rejecting a
negative fee before any mutation), push it, then drop the oldest entry
(`remove(0)`, i.e. `tail`) if the length now exceeds `max_records`. -/
def FeeHistory.add (h : FeeHistory) (base_fee_stroops : ℤ) (source : String)
    (now : ℤ) : Except FeeError FeeHistory :=
  match FeeRecord.new base_fee_stroops source now with
  | .error e => .error e
  | .ok record =>
    let records := h.records ++ [record]
    let records :=
      if records.length > h.max_records then records.tail else records
    .ok { h with records }

/-- The `FeeHistory::latest`. -/
def FeeHistory.latest (h : FeeHistory) : Option FeeRecord :=
  h.records.getLast?

/-- The `FeeHistory::stats`. -/
def FeeHistory.stats (h : FeeHistory) : Option FeeStats :=
  FeeStats.calculate h.records

/-- The `CachedFeeData` from fee/cache.rs (timestamp in integer seconds). -/
structure CachedFeeData where
  base_fee_stroops : ℤ
  fetched_at : ℤ
  ttl_seconds : ℤ
deriving Repr, DecidableEq

/-- The `CachedFeeData::new`: rejects negative fees. -/
def CachedFeeData.new (base_fee_stroops : ℤ) (ttl_seconds : ℤ) (now : ℤ) :
    Except FeeError CachedFeeData :=
  if base_fee_stroops < 0 then
    .error (.InvalidFeeValue "base_fee_stroops cannot be negative")
  else
    .ok { base_fee_stroops, fetched_at := now, ttl_seconds }

/-- The `CachedFeeData::is_valid`: age (seconds) strictly below the TTL. -/
def CachedFeeData.is_valid (d : CachedFeeData) (now : ℤ) : Bool :=
  now - d.fetched_at < d.ttl_seconds

/-- The `FeeCache` from fee/cache.rs: a single optional slot plus the TTL used
for future insertions. -/
structure FeeCache where
  data : Option CachedFeeData
  ttl_seconds : ℤ
deriving Repr, DecidableEq

/-- The `FeeCache::new`. -/
def FeeCache.new (ttl_seconds : ℤ) : FeeCache :=
  { data := none, ttl_seconds }

/-- The `FeeCache::set`: store fresh `CachedFeeData` (propagating its
negative-fee rejection). -/
def FeeCache.set (c : FeeCache) (base_fee_stroops : ℤ) (now : ℤ) :
    Except FeeError FeeCache :=
  match CachedFeeData.new base_fee_stroops c.ttl_seconds now with
  | .error e => .error e
  | .ok d => .ok { c with data := some d }

/-- The `FeeCache::get`: the stored fee, only while the entry is valid. -/
def FeeCache.get (c : FeeCache) (now : ℤ) : Option ℤ :=
  c.data.bind fun d => if d.is_valid now then some d.base_fee_stroops else none

/-- The `SurgePricingConfig` from fee/surge_pricing.rs; f64 thresholds as ℚ. -/
structure SurgePricingConfig where
  normal_base_fee : ℤ
  warn_threshold_percent : ℚ
  critical_threshold_percent : ℚ
  window_size : Nat
deriving Repr, DecidableEq

/-- The `SurgePricingConfig::default`. -/
def SurgePricingConfig.default : SurgePricingConfig :=
  { normal_base_fee := 100
    warn_threshold_percent := 150
    critical_threshold_percent := 300
    window_size := 10 }

/-- The `SurgePricingLevel` from fee/surge_pricing.rs. -/
inductive SurgePricingLevel where
  | Normal
  | Elevated
  | High
  | Critical
deriving Repr, DecidableEq

/-- The `FeeTrend` from fee/surge_pricing.rs. -/
inductive FeeTrend where
  | Increasing
  | Stable
  | Decreasing
deriving Repr, DecidableEq

/-- The `SurgePricingAnalyzer` state from fee/surge_pricing.rs. -/
structure SurgePricingAnalyzer where
  config : SurgePricingConfig
  fee_history : List ℤ
deriving Repr, DecidableEq

/-- The `SurgePricingAnalyzer::new`. -/
def SurgePricingAnalyzer.new (config : SurgePricingConfig) :
    SurgePricingAnalyzer :=
  { config, fee_history := [] }

/-- The `SurgePricingAnalysis` from fee/surge_pricing.rs (the fixed
recommendation string is determined by the level and elided). -/
structure SurgePricingAnalysis where
  surge_level : SurgePricingLevel
  is_surge : Bool
  surge_percent : ℚ
  current_fee : ℤ
  normal_fee : ℤ
  trend : FeeTrend
deriving Repr, DecidableEq

/-- The `SurgePricingAnalyzer::detect_level` from fee/surge_pricing.rs. -/
def SurgePricingAnalyzer.detect_level (a : SurgePricingAnalyzer)
    (surge_percent : ℚ) : SurgePricingLevel :=
  if surge_percent ≥ a.config.critical_threshold_percent then .Critical
  else if surge_percent ≥ a.config.warn_threshold_percent then .High
  else if surge_percent > 100 then .Elevated
  else .Normal

/-- The `SurgePricingAnalyzer::calculate_trend` from fee/surge_pricing.rs.
f64 division is modelled in ℚ (in particular, division of the percent
change by a zero `older_avg` yields 0, i.e. `Stable`, where f64 would give
an infinity; no settled claim depends on the trend). -/
def SurgePricingAnalyzer.calculate_trend (a : SurgePricingAnalyzer) :
    FeeTrend :=
  if a.fee_history.length < 2 then .Stable
  else
    let recent := a.fee_history.drop (a.fee_history.length / 2)
    let older := a.fee_history.take (a.fee_history.length / 2)
    let recent_avg : ℚ := (recent.sum : ℚ) / (recent.length : ℚ)
    let older_avg : ℚ := (older.sum : ℚ) / (older.length : ℚ)
    let percent_change := ((recent_avg - older_avg) / older_avg) * 100
    if percent_change > 10 then .Increasing
    else if percent_change < -10 then .Decreasing
    else .Stable

/-- The `SurgePricingAnalyzer::analyze` from fee/surge_pricing.rs: reject a
negative fee, push it into the sliding window (evicting the oldest entry
when over `window_size`), compute the surge percentage, level, flag and
trend.  Returns the analysis together with the updated analyzer state
(the source mutates `&mut self`). -/
def SurgePricingAnalyzer.analyze (a : SurgePricingAnalyzer)
    (current_base_fee : ℤ) :
    Except FeeError (SurgePricingAnalysis × SurgePricingAnalyzer) :=
  if current_base_fee < 0 then
    .error (.InvalidFeeValue "base fee cannot be negative")
  else
    let hist := a.fee_history ++ [current_base_fee]
    let hist := if hist.length > a.config.window_size then hist.tail else hist
    let a' := { a with fee_history := hist }
    let surge_percent : ℚ :=
      if a.config.normal_base_fee > 0 then
        ((current_base_fee : ℚ) / (a.config.normal_base_fee : ℚ)) * 100
      else 100
    let surge_level := a'.detect_level surge_percent
    let is_surge := surge_level ≠ SurgePricingLevel.Normal
    let trend := a'.calculate_trend
    .ok ({ surge_level, is_surge := decide is_surge, surge_percent,
           current_fee := current_base_fee,
           normal_fee := a.config.normal_base_fee, trend }, a')

/-- The `STROOPS_PER_XLM` from fee/calculator.rs. -/
def STROOPS_PER_XLM : ℤ := 10000000

/-- i64 `checked_mul`: the product, unless it leaves the i64 range. -/
def i64_checked_mul (a b : ℤ) : Option ℤ :=
  if -(2 ^ 63) ≤ a * b ∧ a * b ≤ 2 ^ 63 - 1 then some (a * b) else none

/-- The `stroops_to_xlm` from fee/calculator.rs (f64 division as ℚ). -/
def stroops_to_xlm (stroops : ℤ) : ℚ :=
  (stroops : ℚ) / (STROOPS_PER_XLM : ℚ)

/-- The `FeeInfo` from fee/calculator.rs (`fetched_at` in integer seconds). -/
structure FeeInfo where
  base_fee_stroops : ℤ
  operation_count : Nat
  total_fee_stroops : ℤ
  total_fee_xlm : ℚ
  is_surge_pricing : Bool
  surge_percent : ℚ
  fetched_at : ℤ
deriving Repr, DecidableEq

/-- The `FeeInfo::new` from fee/calculator.rs: reject a zero operation count,
then a negative base fee, then compute the overflow-checked total. -/
def FeeInfo.new (base_fee_stroops : ℤ) (operation_count : Nat)
    (is_surge_pricing : Bool) (surge_percent : ℚ) (now : ℤ) :
    Except FeeError FeeInfo :=
  if operation_count = 0 then
    .error (.InvalidOperationCount "operation_count must be at least 1")
  else if base_fee_stroops < 0 then
    .error (.InvalidFeeValue "base_fee_stroops cannot be negative")
  else
    match i64_checked_mul base_fee_stroops (operation_count : ℤ) with
    | none => .error (.InvalidFeeValue "fee calculation overflow")
    | some total_fee_stroops =>
      .ok { base_fee_stroops, operation_count, total_fee_stroops,
            total_fee_xlm := stroops_to_xlm total_fee_stroops,
            is_surge_pricing, surge_percent, fetched_at := now }

/-- The mutable state of `FeeEstimationService` (fee/service.rs): the fee
cache, the fee history, the surge analyzer, plus an instrumentation counter
of how many times the external Horizon fetcher collaborator was invoked
(the fetcher itself is external I/O; its would-be outcome is passed to
`estimate_fee` as an argument). -/
structure FeeServiceState where
  cache : FeeCache
  history : FeeHistory
  analyzer : SurgePricingAnalyzer
  fetch_count : Nat
deriving Repr, DecidableEq

/-- The `FeeEstimationService::new` with a given cache TTL and history capacity
(surge analyzer defaults, fetcher not yet invoked). -/
def FeeServiceState.new (cache_ttl_secs : ℤ) (max_history_records : Nat) :
    FeeServiceState :=
  { cache := FeeCache.new cache_ttl_secs
    history := FeeHistory.new max_history_records
    analyzer := SurgePricingAnalyzer.new SurgePricingConfig.default
    fetch_count := 0 }

/-- The `FeeEstimationService::fetch_and_cache_fee` (fee/service.rs): invoke the
fetcher (counting the invocation), propagate its error, otherwise store the
fee in the cache and then in the history.  `fetchResult` is the outcome the
external fetcher produces when invoked. -/
def FeeServiceState.fetch_and_cache_fee (st : FeeServiceState)
    (fetchResult : Except FeeError ℤ) (now : ℤ) :
    Except FeeError ℤ × FeeServiceState :=
  let st := { st with fetch_count := st.fetch_count + 1 }
  match fetchResult with
  | .error e => (.error e, st)
  | .ok base_fee =>
    match st.cache.set base_fee now with
    | .error e => (.error e, st)
    | .ok cache' =>
      let st := { st with cache := cache' }
      match st.history.add base_fee "Horizon API" now with
      | .error e => (.error e, st)
      | .ok history' => (.ok base_fee, { st with history := history' })

/-- The `FeeEstimationService::estimate_fee` (fee/service.rs): on a valid cache
hit, build the `FeeInfo` directly (`is_surge = false`,
`surge_percent = 100.0`) with no fetch; on a miss, fetch-and-cache, run the
surge analyzer, and build the `FeeInfo` from the analysis. -/
def FeeServiceState.estimate_fee (st : FeeServiceState)
    (fetchResult : Except FeeError ℤ) (now : ℤ) (operation_count : Nat) :
    Except FeeError FeeInfo × FeeServiceState :=
  match st.cache.get now with
  | some cached_fee =>
    (FeeInfo.new cached_fee operation_count false 100 now, st)
  | none =>
    match st.fetch_and_cache_fee fetchResult now with
    | (.error e, st) => (.error e, st)
    | (.ok base_fee, st) =>
      match st.analyzer.analyze base_fee with
      | .error e => (.error e, st)
      | .ok (analysis, analyzer') =>
        let st := { st with analyzer := analyzer' }
        (FeeInfo.new base_fee operation_count analysis.is_surge
           analysis.surge_percent now, st)

/-- The `ResponseCache` from horizon_client/cache.rs: the moka TTL cache is
modelled as an association list of (key, value, inserted-at) triples with
per-entry expiry `ttl` seconds after insertion (the library treats expired
entries as absent on lookup); hit/miss counters as in the source. -/
structure ResponseCache (α : Type) where
  entries : List (String × α × ℤ)
  ttl : ℤ
  hits : Nat
  misses : Nat

/-- The `ResponseCache::new`. -/
def ResponseCache.new (ttl : ℤ) : ResponseCache α :=
  { entries := [], ttl, hits := 0, misses := 0 }

/-- Lookup in the modelled moka cache: the entry for `key`, provided its
age is still below the cache's TTL. -/
def ResponseCache.lookup (c : ResponseCache α) (key : String) (now : ℤ) :
    Option α :=
  (c.entries.find? fun e => e.1 = key ∧ now - e.2.2 < c.ttl).map (·.2.1)

/-- The `ResponseCache::get` from horizon_client/cache.rs: on a hit increment
the hit counter and return the value; otherwise (absent or past TTL)
increment the miss counter and return `CacheError "Cache miss"`. -/
def ResponseCache.get (c : ResponseCache α) (key : String) (now : ℤ) :
    Except HorizonError α × ResponseCache α :=
  match c.lookup key now with
  | some value => (.ok value, { c with hits := c.hits + 1 })
  | none =>
    (.error (.CacheError "Cache miss"), { c with misses := c.misses + 1 })

/-- The `ResponseCache::set`: insert (replacing any previous entry for the key,
as moka's `insert` does), stamped with the insertion time. -/
def ResponseCache.set (c : ResponseCache α) (key : String) (value : α)
    (now : ℤ) : ResponseCache α :=
  { c with entries := (key, value, now) :: c.entries.filter (·.1 ≠ key) }

/-- The `ResponseCache::clear` (`invalidate_all`). -/
def ResponseCache.clear (c : ResponseCache α) : ResponseCache α :=
  { c with entries := [] }

/-- The `ResponseCache::reset_stats`: zero both counters. -/
def ResponseCache.reset_stats (c : ResponseCache α) : ResponseCache α :=
  { c with hits := 0, misses := 0 }

/-- The cache operations a caller can issue (get/set/clear/reset_stats),
used to state counter invariants over arbitrary operation sequences. -/
inductive CacheOp (α : Type) where
  | get (key : String) (now : ℤ)
  | set (key : String) (value : α) (now : ℤ)
  | clear
  | reset_stats

/-- One step of the `ResponseCache` transition system. -/
def CacheOp.apply (c : ResponseCache α) : CacheOp α → ResponseCache α
  | .get key now => (c.get key now).2
  | .set key value now => c.set key value now
  | .clear => c.clear
  | .reset_stats => c.reset_stats

/-! Theorems settling the claims. -/

/-- C3: `should_retry` under `NoRetry` is always false; under
`TransientOnly` it holds exactly on the five transient kinds; under
`TransientAndServerErrors` exactly on the transient kinds plus
{ServerError, ServiceUnavailable, RateLimited}; under `AllRetryable`
exactly on the errors `is_retryable` flags, which are those same eight
kinds (so TlsError, NotFound, BadRequest, Unauthorized, Forbidden,
InvalidRequest, InvalidResponse, InvalidConfig, CacheError are all
non-retryable under every policy). -/
theorem should_retry_characterization (e : HorizonError) :
    RetryPolicy.should_retry .NoRetry e = false ∧
    RetryPolicy.should_retry .TransientOnly e = transientSpecSet e ∧
    RetryPolicy.should_retry .TransientAndServerErrors e
      = (transientSpecSet e || serverSpecSet e) ∧
    RetryPolicy.should_retry .AllRetryable e
      = (transientSpecSet e || serverSpecSet e) ∧
    RetryPolicy.should_retry .AllRetryable e = e.is_retryable := by
  cases e <;>
    simp [RetryPolicy.should_retry, transientSpecSet, serverSpecSet,
      HorizonError.is_retryable, HorizonError.is_server_error]

/-- Pushing `Nat.floor` through a `min` against a natural cap. -/
lemma natFloor_min_natCast (x : ℚ) (n : Nat) :
    ⌊min x (n : ℚ)⌋₊ = min ⌊x⌋₊ n := by
  rcases le_total x (n : ℚ) with h | h
  · rw [min_eq_left h, eq_comm, min_eq_left]
    calc ⌊x⌋₊ ≤ ⌊(n : ℚ)⌋₊ := Nat.floor_mono h
    _ = n := Nat.floor_natCast n
  · rw [min_eq_right h, Nat.floor_natCast, eq_comm, min_eq_right]
    calc n = ⌊(n : ℚ)⌋₊ := (Nat.floor_natCast n).symm
    _ ≤ ⌊x⌋₊ := Nat.floor_mono h

/-- The capped backoff never exceeds the configured maximum. -/
lemma cappedBackoff_le_max (attempt : Nat) (config : RetryConfig) :
    cappedBackoff attempt config ≤ config.max_backoff := by
  unfold cappedBackoff
  rw [natFloor_min_natCast]
  exact min_le_right _ _

/-- With multiplier ≥ 1 the capped backoff is monotone in the attempt. -/
lemma cappedBackoff_mono (config : RetryConfig)
    (hm : 1 ≤ config.backoff_multiplier) {a b : Nat} (hab : a ≤ b) :
    cappedBackoff a config ≤ cappedBackoff b config := by
  unfold cappedBackoff
  apply Nat.floor_mono
  apply min_le_min_right
  apply mul_le_mul_of_nonneg_left _ (by positivity)
  exact pow_le_pow_right₀ hm (by omega)

/-- C2: with jitter disabled and a sane config (multiplier ≥ 1,
`max_backoff ≥ initial_backoff`), `calculate_backoff` returns 0 for
attempt 0; for attempt ≥ 1 it returns
`min ⌊initial_backoff · multiplier^(attempt-1)⌋ max_backoff` (millisecond
truncation of the spec's formula); the result never exceeds `max_backoff`
and is non-decreasing in the attempt number. -/
theorem calculate_backoff_no_jitter_spec (config : RetryConfig) (rand : Nat)
    (hm : 1 ≤ config.backoff_multiplier)
    (_hmax : config.initial_backoff ≤ config.max_backoff)
    (hj : config.use_jitter = false) :
    calculate_backoff 0 config rand = some 0 ∧
    (∀ attempt, 1 ≤ attempt →
      calculate_backoff attempt config rand =
        some (min
          ⌊(config.initial_backoff : ℚ)
            * config.backoff_multiplier ^ (attempt - 1)⌋₊
          config.max_backoff)) ∧
    (∀ attempt b, calculate_backoff attempt config rand = some b →
      b ≤ config.max_backoff) ∧
    (∀ a b x y, a ≤ b →
      calculate_backoff a config rand = some x →
      calculate_backoff b config rand = some y → x ≤ y) := by
  have hval : ∀ attempt, calculate_backoff attempt config rand =
      some (if attempt = 0 then 0 else cappedBackoff attempt config) := by
    intro attempt
    unfold calculate_backoff
    split
    · simp
    · simp [hj]
  refine ⟨by simpa using hval 0, ?_, ?_, ?_⟩
  · intro attempt h1
    rw [hval attempt, if_neg (by omega)]
    unfold cappedBackoff
    rw [natFloor_min_natCast]
  · intro attempt b hb
    rw [hval attempt] at hb
    rcases Option.some.injEq _ _ |>.mp hb with rfl
    split
    · exact Nat.zero_le _
    · exact cappedBackoff_le_max attempt config
  · intro a b x y hab hx hy
    rw [hval a] at hx
    rw [hval b] at hy
    rcases Option.some.injEq _ _ |>.mp hx with rfl
    rcases Option.some.injEq _ _ |>.mp hy with rfl
    split
    · exact Nat.zero_le _
    · rw [if_neg (by omega)]
      exact cappedBackoff_mono config hm hab

/-- Witness for `calculate_backoff_no_jitter_spec`: the default config with
jitter turned off, at attempt 2, yields 100·2¹ = 200 ms. -/
theorem calculate_backoff_no_jitter_spec_witness :
    calculate_backoff 2
      { max_attempts := 3, initial_backoff := 100, max_backoff := 30000,
        backoff_multiplier := 2, use_jitter := false } 0 = some 200 := by
  have h := calculate_backoff_no_jitter_spec
    { max_attempts := 3, initial_backoff := 100, max_backoff := 30000,
      backoff_multiplier := 2, use_jitter := false } 0
    (by norm_num) (by norm_num) rfl
  have h2 := h.2.1 2 (by norm_num)
  rw [h2]
  norm_num

/-- Multiplying a natural by the f64 literal `0.1` and truncating is
division by ten. -/
lemma natFloor_mul_tenth (b : Nat) : ⌊(b : ℚ) * (1 / 10)⌋₊ = b / 10 := by
  rw [mul_one_div, show ((10 : ℚ)) = ((10 : Nat) : ℚ) by norm_num,
    Nat.floor_div_nat, Nat.floor_natCast]

/-- C10: for attempt ≥ 1, `calculate_backoff` hits the division-by-zero
panic (`rand % (jitter_amount * 2)` with `jitter_amount = 0`) exactly when
jitter is enabled and the capped backoff is under 10 ms; in particular it
always panics when `max_backoff` is under 10 ms with jitter on, and at the
first attempt when `initial_backoff` is under 10 ms with jitter on; with
jitter off it never panics, and attempt 0 always returns 0. -/
theorem calculate_backoff_panics_iff (config : RetryConfig)
    (rand attempt : Nat) (h1 : 1 ≤ attempt) :
    (calculate_backoff attempt config rand = none ↔
      config.use_jitter = true ∧ cappedBackoff attempt config < 10) ∧
    (config.use_jitter = true → config.max_backoff < 10 →
      calculate_backoff attempt config rand = none) ∧
    (config.use_jitter = true → config.initial_backoff < 10 → attempt = 1 →
      calculate_backoff attempt config rand = none) ∧
    (config.use_jitter = false → calculate_backoff attempt config rand ≠ none) ∧
    calculate_backoff 0 config rand = some 0 := by
  have hmain : calculate_backoff attempt config rand = none ↔
      config.use_jitter = true ∧ cappedBackoff attempt config < 10 := by
    unfold calculate_backoff
    rw [if_neg (by omega)]
    rcases hj : config.use_jitter with _ | _
    · simp [hj]
    · simp only [hj, if_true, natFloor_mul_tenth, true_and]
      constructor
      · intro h
        by_contra hc
        rw [if_neg] at h
        · exact Option.some_ne_none _ h
        · omega
      · intro h
        rw [if_pos (by omega)]
  refine ⟨hmain, ?_, ?_, ?_, ?_⟩
  · intro hj hlt
    exact hmain.mpr ⟨hj, lt_of_le_of_lt (cappedBackoff_le_max attempt config) hlt⟩
  · intro hj hlt hatt
    apply hmain.mpr
    refine ⟨hj, ?_⟩
    have : cappedBackoff attempt config ≤ config.initial_backoff := by
      subst hatt
      unfold cappedBackoff
      simp only [Nat.sub_self, pow_zero, mul_one]
      rw [natFloor_min_natCast, Nat.floor_natCast]
      exact min_le_left _ _
    omega
  · intro hj
    unfold calculate_backoff
    rw [if_neg (by omega)]
    simp [hj]
  · unfold calculate_backoff
    simp

/-- Witness for `calculate_backoff_panics_iff`: with jitter on and a 5 ms
initial backoff, the first attempt's backoff computation panics. -/
theorem calculate_backoff_panics_iff_witness :
    calculate_backoff 1
      { max_attempts := 3, initial_backoff := 5, max_backoff := 30000,
        backoff_multiplier := 2, use_jitter := true } 7 = none := by
  have h := calculate_backoff_panics_iff
    { max_attempts := 3, initial_backoff := 5, max_backoff := 30000,
      backoff_multiplier := 2, use_jitter := true } 7 1 (by norm_num)
  exact h.2.2.1 rfl (by norm_num) rfl

/-- The retry loop on an operation that fails every time with a retryable
error finishes the budget and returns the last injected error. -/
lemma retryGo_all_fail {α : Type} (maxA : Nat) (policy : RetryPolicy)
    (op : Nat → Except HorizonError α) (errFn : Nat → HorizonError)
    (hop : ∀ i, op i = .error (errFn i))
    (hr : ∀ i, policy.should_retry (errFn i) = true) :
    ∀ n made errs, maxA - made = n + 1 →
      retryGo maxA policy op made errs = (.error (errFn (maxA - 1)), maxA) := by
  intro n
  induction n with
  | zero =>
    intro made errs h
    have hlt : made < maxA := by omega
    have heq : made + 1 = maxA := by omega
    rw [retryGo, dif_pos hlt, hop made]
    simp only [hr made, not_true_eq_false, if_false, ge_iff_le, heq, le_refl,
      if_true]
    have : made = maxA - 1 := by omega
    rw [this]
  | succ k ih =>
    intro made errs h
    have hlt : made < maxA := by omega
    rw [retryGo, dif_pos hlt, hop made]
    simp only [hr made, not_true_eq_false, if_false, ge_iff_le]
    rw [if_neg (by omega)]
    exact ih (made + 1) _ (by omega)

/-- The retry loop returns the operation's first success as soon as it
occurs, after exactly one invocation per preceding (retryable) failure. -/
lemma retryGo_first_success {α : Type} (maxA : Nat) (policy : RetryPolicy)
    (op : Nat → Except HorizonError α) (v : α) (k : Nat)
    (hk : k < maxA) (hok : op k = .ok v)
    (hfail : ∀ i, i < k → ∃ e, op i = .error e ∧ policy.should_retry e = true) :
    ∀ n made errs, k - made = n → made ≤ k →
      retryGo maxA policy op made errs = (.ok v, k + 1) := by
  intro n
  induction n with
  | zero =>
    intro made errs h hle
    have : made = k := by omega
    subst this
    rw [retryGo, dif_pos hk, hok]
  | succ j ih =>
    intro made errs h hle
    have hmk : made < k := by omega
    obtain ⟨e, hope, hre⟩ := hfail made hmk
    rw [retryGo, dif_pos (by omega), hope]
    simp only [hre, not_true_eq_false, if_false, ge_iff_le]
    rw [if_neg (by omega)]
    exact ih (made + 1) _ (by omega) (by omega)

/-- C1: for every config with `max_attempts ≥ 1` (the spec's `RetryConfig`
invariant) and every policy: an operation whose first invocation fails with
an error the policy rejects is invoked exactly once and that error is
returned; an operation failing every time with errors the policy accepts is
invoked exactly `max_attempts` times and the last observed error is
returned; and the first successful invocation is returned immediately, the
total invocation count being the failures before it plus one. -/
theorem retry_with_backoff_spec (config : RetryConfig) (policy : RetryPolicy)
    (hmax : 1 ≤ config.max_attempts) :
    (∀ (α : Type) (op : Nat → Except HorizonError α) (e : HorizonError),
      op 0 = .error e → policy.should_retry e = false →
      retry_with_backoff config policy op = (.error e, 1)) ∧
    (∀ (α : Type) (op : Nat → Except HorizonError α)
      (errFn : Nat → HorizonError),
      (∀ i, op i = .error (errFn i)) →
      (∀ i, policy.should_retry (errFn i) = true) →
      retry_with_backoff config policy op =
        (.error (errFn (config.max_attempts - 1)), config.max_attempts)) ∧
    (∀ (α : Type) (op : Nat → Except HorizonError α) (v : α) (k : Nat),
      k < config.max_attempts → op k = .ok v →
      (∀ i, i < k → ∃ e, op i = .error e ∧ policy.should_retry e = true) →
      retry_with_backoff config policy op = (.ok v, k + 1)) := by
  refine ⟨?_, ?_, ?_⟩
  · intro α op e hop hsr
    unfold retry_with_backoff
    rw [retryGo, dif_pos (by omega), hop]
    simp [hsr]
  · intro α op errFn hop hr
    unfold retry_with_backoff
    exact retryGo_all_fail config.max_attempts policy op errFn hop hr
      (config.max_attempts - 1) 0 [] (by omega)
  · intro α op v k hk hok hfail
    unfold retry_with_backoff
    exact retryGo_first_success config.max_attempts policy op v k hk hok hfail
      k 0 [] (by omega) (by omega)

/-- Witness for `retry_with_backoff_spec`: with 3 attempts under
`TransientAndServerErrors`, an always-`NotFound` operation is invoked once
and an always-`NetworkError` operation three times, each returning the
injected error. -/
theorem retry_with_backoff_spec_witness :
    retry_with_backoff
      { max_attempts := 3, initial_backoff := 100, max_backoff := 30000,
        backoff_multiplier := 2, use_jitter := false }
      .TransientAndServerErrors
      (fun _ => (.error (.NotFound "r") : Except HorizonError Unit)) =
      (.error (.NotFound "r"), 1) ∧
    retry_with_backoff
      { max_attempts := 3, initial_backoff := 100, max_backoff := 30000,
        backoff_multiplier := 2, use_jitter := false }
      .TransientAndServerErrors
      (fun _ => (.error (.NetworkError "down") : Except HorizonError Unit)) =
      (.error (.NetworkError "down"), 3) := by
  constructor
  · exact (retry_with_backoff_spec _ .TransientAndServerErrors
      (by norm_num)).1 Unit _ (.NotFound "r") rfl rfl
  · exact (retry_with_backoff_spec _ .TransientAndServerErrors
      (by norm_num)).2.1 Unit _ (fun _ => .NetworkError "down")
      (fun _ => rfl) (fun _ => rfl)

/-- Dropping the head of a list commutes with appending one element at the
back, provided the list is non-empty. -/
lemma tail_append_singleton {α : Type} (l : List α) (r : α) (h : l ≠ []) :
    (l ++ [r]).tail = l.tail ++ [r] := by
  cases l with
  | nil => exact absurd rfl h
  | cons a t => simp

/-- One `add` call as the caller sees it: on success the new history, on a
rejected fee the history unchanged (the source returns `Err` before any
mutation). -/
def FeeHistory.addOr (h : FeeHistory) (o : ℤ × String × ℤ) : FeeHistory :=
  match h.add o.1 o.2.1 o.2.2 with
  | .ok h' => h'
  | .error _ => h

/-- A sequence of `add` calls. -/
def FeeHistory.applyAdds (h : FeeHistory) (ops : List (ℤ × String × ℤ)) :
    FeeHistory :=
  ops.foldl FeeHistory.addOr h

/-- A successful `add` keeps the capacity and respects the length bound. -/
lemma FeeHistory.add_ok_inv {h h' : FeeHistory} {f : ℤ} {s : String} {t : ℤ}
    (hadd : h.add f s t = .ok h') :
    h'.max_records = h.max_records ∧
    (h.records.length ≤ h.max_records →
      h'.records.length ≤ h.max_records) := by
  unfold FeeHistory.add FeeRecord.new at hadd
  by_cases hf : f < 0
  · simp [hf] at hadd
  · simp only [hf, if_false] at hadd
    rcases Except.ok.injEq _ _ |>.mp hadd with rfl
    refine ⟨rfl, fun hlen => ?_⟩
    dsimp only
    split
    · rename_i hc
      simp at hc ⊢
      omega
    · rename_i hc
      simp at hc ⊢
      omega

/-- The `addOr` preserves the bounded-length invariant. -/
lemma FeeHistory.addOr_inv {h : FeeHistory} {o : ℤ × String × ℤ}
    (hlen : h.records.length ≤ h.max_records) :
    (h.addOr o).max_records = h.max_records ∧
    (h.addOr o).records.length ≤ h.max_records := by
  unfold FeeHistory.addOr
  cases hadd : h.add o.1 o.2.1 o.2.2 with
  | error e => exact ⟨rfl, hlen⟩
  | ok h' => exact ⟨(FeeHistory.add_ok_inv hadd).1,
      (FeeHistory.add_ok_inv hadd).2 hlen⟩

/-- The bounded-length invariant holds along any sequence of adds. -/
lemma FeeHistory.applyAdds_inv (ops : List (ℤ × String × ℤ)) :
    ∀ h : FeeHistory, h.records.length ≤ h.max_records →
      (h.applyAdds ops).max_records = h.max_records ∧
      (h.applyAdds ops).records.length ≤ h.max_records := by
  induction ops with
  | nil => exact fun h hlen => ⟨rfl, hlen⟩
  | cons o rest ih =>
    intro h hlen
    have hstep := FeeHistory.addOr_inv (o := o) hlen
    have := ih (h.addOr o) (hstep.1 ▸ hstep.2)
    unfold FeeHistory.applyAdds at *
    rw [List.foldl_cons]
    exact ⟨this.1.trans hstep.1, hstep.1 ▸ this.2⟩

/-- C7: starting from `FeeHistory::new(max_records)`, any sequence of `add`
calls leaves at most `max_records` records; an overflowing successful add
evicts exactly the single oldest record (keeping order) while a
non-overflowing one appends; with capacity 3, adding fees
[100, 110, 120, 130] leaves exactly [110, 120, 130]; and `add` of a
negative fee is rejected with `InvalidFeeValue` (the source returns the
error before touching the record list). -/
theorem fee_history_bounded_fifo :
    (∀ (max : Nat) (ops : List (ℤ × String × ℤ)),
      ((FeeHistory.new max).applyAdds ops).records.length ≤ max) ∧
    (∀ (h h' : FeeHistory) (f : ℤ) (s : String) (t : ℤ),
      h.add f s t = .ok h' →
      (h.records ≠ [] → h.records.length + 1 > h.max_records →
        h'.records = h.records.tail ++ [⟨f, t, s⟩]) ∧
      (h.records.length + 1 ≤ h.max_records →
        h'.records = h.records ++ [⟨f, t, s⟩])) ∧
    ((FeeHistory.new 3).applyAdds
        [(100, "Horizon", 0), (110, "Horizon", 1), (120, "Horizon", 2),
          (130, "Horizon", 3)]).records.map (·.base_fee_stroops)
      = [110, 120, 130] ∧
    (∀ (h : FeeHistory) (f : ℤ) (s : String) (t : ℤ), f < 0 →
      h.add f s t =
        .error (.InvalidFeeValue "base_fee_stroops cannot be negative")) := by
  refine ⟨?_, ?_, by decide, ?_⟩
  · intro max ops
    exact (FeeHistory.applyAdds_inv ops (FeeHistory.new max)
      (by simp [FeeHistory.new])).2
  · intro h h' f s t hadd
    unfold FeeHistory.add FeeRecord.new at hadd
    by_cases hf : f < 0
    · simp [hf] at hadd
    · simp only [hf, if_false] at hadd
      rcases Except.ok.injEq _ _ |>.mp hadd with rfl
      constructor
      · intro hne hover
        dsimp only
        rw [if_pos (by simp; omega)]
        exact tail_append_singleton _ _ hne
      · intro hle
        dsimp only
        rw [if_neg (by simp; omega)]
  · intro h f s t hf
    unfold FeeHistory.add FeeRecord.new
    simp [hf]

/-- Witness for `fee_history_bounded_fifo`: a fresh 3-slot history rejects
the fee −5 with `InvalidFeeValue`. -/
theorem fee_history_bounded_fifo_witness :
    (FeeHistory.new 3).add (-5) "Horizon" 0 =
      .error (.InvalidFeeValue "base_fee_stroops cannot be negative") :=
  fee_history_bounded_fifo.2.2.2 (FeeHistory.new 3) (-5) "Horizon" 0
    (by norm_num)

instance : Std.Antisymm ((· : ℤ) ≤ ·) :=
  ⟨fun h1 h2 => le_antisymm h1 h2⟩

/-- The optional minimum of a non-empty integer list is a least element. -/
lemma min?_getD_spec (l : List ℤ) (hne : l ≠ []) :
    l.min?.getD 0 ∈ l ∧ ∀ b ∈ l, l.min?.getD 0 ≤ b := by
  cases hmin : l.min? with
  | none => exact absurd (List.min?_eq_none_iff.mp hmin) hne
  | some m =>
    have := (List.min?_eq_some_iff (fun _ => le_refl _) min_choice
      (fun _ _ _ => le_min_iff)).mp hmin
    simpa using this

/-- The optional maximum of a non-empty integer list is a greatest element. -/
lemma max?_getD_spec (l : List ℤ) (hne : l ≠ []) :
    l.max?.getD 0 ∈ l ∧ ∀ b ∈ l, b ≤ l.max?.getD 0 := by
  cases hmax : l.max? with
  | none => exact absurd (List.max?_eq_none_iff.mp hmax) hne
  | some m =>
    have := (List.max?_eq_some_iff (fun _ => le_refl _) max_choice
      (fun _ _ _ => max_le_iff)).mp hmax
    simpa using this

/-- C8 (amended): for non-empty records, `FeeStats.calculate` reports the
count, a min that is a least fee, a max that is a greatest fee, the mean
(characterized by mean · count = sum), the population variance
(variance · count = Σ(f − mean)²; the source stores its square root as
`std_dev`), and the median determined by the unique sorted rearrangement of
the fees — the middle element for odd counts and, for even counts, the
*truncated integer* average of the two middle elements (i64 division by 2);
the medians of [100,150,200,250] and [100,150,200] are 175 and 150, and the
empty record list yields `none`. -/
theorem fee_stats_spec :
    (∀ records : List FeeRecord, records ≠ [] →
      ∃ s, FeeStats.calculate records = some s ∧
        (s.total_records = records.length ∧
         s.min_fee ∈ records.map (·.base_fee_stroops) ∧
         (∀ f ∈ records.map (·.base_fee_stroops), s.min_fee ≤ f) ∧
         s.max_fee ∈ records.map (·.base_fee_stroops) ∧
         (∀ f ∈ records.map (·.base_fee_stroops), f ≤ s.max_fee) ∧
         s.avg_fee * (records.length : ℚ)
           = (((records.map (·.base_fee_stroops)).sum : ℤ) : ℚ) ∧
         s.std_dev_sq * (records.length : ℚ)
           = ((records.map (·.base_fee_stroops)).map
               (fun f => ((f : ℚ) - s.avg_fee) * ((f : ℚ) - s.avg_fee))).sum ∧
         (∀ sorted : List ℤ,
            sorted.Perm (records.map (·.base_fee_stroops)) →
            sorted.Sorted (· ≤ ·) →
            s.median_fee =
              if sorted.length % 2 = 0 then
                Int.tdiv (sorted.getD (sorted.length / 2 - 1) 0
                  + sorted.getD (sorted.length / 2) 0) 2
              else sorted.getD (sorted.length / 2) 0))) ∧
    FeeStats.calculate [] = none ∧
    (FeeStats.calculate
        [⟨100, 0, "h"⟩, ⟨150, 1, "h"⟩, ⟨200, 2, "h"⟩, ⟨250, 3, "h"⟩]).map
      (·.median_fee) = some 175 ∧
    (FeeStats.calculate [⟨100, 0, "h"⟩, ⟨150, 1, "h"⟩, ⟨200, 2, "h"⟩]).map
      (·.median_fee) = some 150 := by
  refine ⟨?_, rfl, by decide, by decide⟩
  intro records hne
  have hempty : records.isEmpty = false := by
    simpa [List.isEmpty_iff] using hne
  have hfees : records.map (·.base_fee_stroops) ≠ [] := by
    simpa using hne
  have hlenq : ((records.length : ℚ)) ≠ 0 := by
    have : records.length ≠ 0 := by simpa [List.length_eq_zero] using hne
    exact_mod_cast this
  unfold FeeStats.calculate
  rw [hempty]
  simp only [Bool.false_eq_true, if_false]
  refine ⟨_, rfl, ?_⟩
  dsimp only
  refine ⟨by simp, ?_, ?_, ?_, ?_, ?_, ?_, ?_⟩
  · exact (min?_getD_spec _ hfees).1
  · exact (min?_getD_spec _ hfees).2
  · exact (max?_getD_spec _ hfees).1
  · exact (max?_getD_spec _ hfees).2
  · rw [List.length_map]
    exact div_mul_cancel₀ _ hlenq
  · rw [List.length_map]
    exact div_mul_cancel₀ _ hlenq
  · intro sorted hperm hsorted
    have heq : sorted =
        (records.map (·.base_fee_stroops)).insertionSort (· ≤ ·) :=
      List.eq_of_perm_of_sorted
        (hperm.trans (List.perm_insertionSort _ _).symm) hsorted
        (List.sorted_insertionSort _ _)
    rw [heq]

/-- Witness for `fee_stats_spec`: the singleton history [100] has one
record and minimum fee 100. -/
theorem fee_stats_spec_witness :
    ∃ s, FeeStats.calculate [⟨100, 0, "Horizon"⟩] = some s ∧
      s.total_records = 1 ∧ s.min_fee = 100 := by
  obtain ⟨s, hcalc, hprops⟩ := fee_stats_spec.1 [⟨100, 0, "Horizon"⟩] (by simp)
  refine ⟨s, hcalc, by simpa using hprops.1, ?_⟩
  have := hprops.2.1
  simpa using this

/-- C8 counterexample: with fee records [100, 101] the source's even-length
median is the i64-truncated `(100 + 101) / 2 = 100`, not the arithmetic
average 100.5 of the two middle sorted values that the claim's "standard
even/odd-length rule" prescribes. -/
theorem fee_stats_even_median_counterexample :
    (FeeStats.calculate [⟨100, 0, "Horizon"⟩, ⟨101, 1, "Horizon"⟩]).map
        (·.median_fee) = some 100 ∧
    (((100 : ℤ) : ℚ)) ≠ ((100 : ℚ) + 101) / 2 := by
  exact ⟨by decide, by norm_num⟩

/-- C6 (amended): `analyze` rejects a negative fee; for fee ≥ 0 it
succeeds, with `surge_percent = fee / normal_base_fee · 100` when
`normal_base_fee > 0` and the fallback 100.0 whenever `normal_base_fee ≤ 0`
(not only when it is zero), the level given by the
Critical/High/Elevated/Normal threshold chain, and `is_surge` exactly when
the level is not Normal; with the default config, analyze(100) is Normal
(percent 100, no surge), analyze(250) is High (percent 250, surge),
analyze(500) is Critical, and analyze(−1) is an error. -/
theorem surge_analyze_spec :
    (∀ (a : SurgePricingAnalyzer) (fee : ℤ), fee < 0 →
      a.analyze fee = .error (.InvalidFeeValue "base fee cannot be negative")) ∧
    (∀ (a : SurgePricingAnalyzer) (fee : ℤ), 0 ≤ fee →
      ∃ r a', a.analyze fee = .ok (r, a') ∧
        r.surge_percent =
          (if a.config.normal_base_fee > 0 then
            ((fee : ℚ) / (a.config.normal_base_fee : ℚ)) * 100
          else 100) ∧
        r.surge_level =
          (if r.surge_percent ≥ a.config.critical_threshold_percent then
            .Critical
          else if r.surge_percent ≥ a.config.warn_threshold_percent then
            .High
          else if r.surge_percent > 100 then .Elevated
          else .Normal) ∧
        (r.is_surge = true ↔ r.surge_level ≠ .Normal)) ∧
    (SurgePricingAnalyzer.new SurgePricingConfig.default).analyze 100 =
      .ok (⟨.Normal, false, 100, 100, 100, .Stable⟩,
        ⟨SurgePricingConfig.default, [100]⟩) ∧
    (SurgePricingAnalyzer.new SurgePricingConfig.default).analyze 250 =
      .ok (⟨.High, true, 250, 250, 100, .Stable⟩,
        ⟨SurgePricingConfig.default, [250]⟩) ∧
    (SurgePricingAnalyzer.new SurgePricingConfig.default).analyze 500 =
      .ok (⟨.Critical, true, 500, 500, 100, .Stable⟩,
        ⟨SurgePricingConfig.default, [500]⟩) ∧
    (SurgePricingAnalyzer.new SurgePricingConfig.default).analyze (-1) =
      .error (.InvalidFeeValue "base fee cannot be negative") := by
  refine ⟨?_, ?_, ?ca, ?cb, ?cc, ?cd⟩
  case ca =>
    norm_num [SurgePricingAnalyzer.analyze, SurgePricingAnalyzer.new,
      SurgePricingConfig.default, SurgePricingAnalyzer.detect_level,
      SurgePricingAnalyzer.calculate_trend]
  case cb =>
    norm_num [SurgePricingAnalyzer.analyze, SurgePricingAnalyzer.new,
      SurgePricingConfig.default, SurgePricingAnalyzer.detect_level,
      SurgePricingAnalyzer.calculate_trend]
    decide
  case cc =>
    norm_num [SurgePricingAnalyzer.analyze, SurgePricingAnalyzer.new,
      SurgePricingConfig.default, SurgePricingAnalyzer.detect_level,
      SurgePricingAnalyzer.calculate_trend]
    decide
  case cd =>
    norm_num [SurgePricingAnalyzer.analyze, SurgePricingAnalyzer.new,
      SurgePricingConfig.default]
  · intro a fee hneg
    unfold SurgePricingAnalyzer.analyze
    rw [if_pos hneg]
  · intro a fee hpos
    unfold SurgePricingAnalyzer.analyze
    rw [if_neg (not_lt.mpr hpos)]
    refine ⟨_, _, rfl, rfl, ?_, ?_⟩
    · rfl
    · dsimp only
      exact decide_eq_true_iff

/-- Witness for `surge_analyze_spec`: analyzing the fee 100 under the
default config succeeds with surge percentage 100. -/
theorem surge_analyze_spec_witness :
    ∃ r a',
      (SurgePricingAnalyzer.new SurgePricingConfig.default).analyze 100 =
        .ok (r, a') ∧ r.surge_percent = 100 := by
  obtain ⟨r, a', heq, hp, _, _⟩ := surge_analyze_spec.2.1
    (SurgePricingAnalyzer.new SurgePricingConfig.default) 100 (by norm_num)
  refine ⟨r, a', heq, ?_⟩
  rw [hp]
  norm_num [SurgePricingAnalyzer.new, SurgePricingConfig.default]

/-- C6 counterexample: with `normal_base_fee = −100` (a legal analyzer
configuration) and fee 100, the source reports `surge_percent = 100.0`
(its fallback branch tests `normal_base_fee > 0`, not `= 0`), while the
claim's formula `fee / normal_base_fee · 100` yields −100. -/
theorem surge_percent_negative_normal_counterexample :
    (SurgePricingAnalyzer.new
      { normal_base_fee := -100, warn_threshold_percent := 150,
        critical_threshold_percent := 300, window_size := 10 }).analyze 100 =
      .ok (⟨.Normal, false, 100, 100, -100, .Stable⟩,
        ⟨{ normal_base_fee := -100, warn_threshold_percent := 150,
           critical_threshold_percent := 300, window_size := 10 }, [100]⟩) ∧
    ((100 : ℚ) / ((-100 : ℤ) : ℚ)) * 100 = -100 ∧
    (100 : ℚ) ≠ -100 := by
  refine ⟨?_, by norm_num, by norm_num⟩
  norm_num [SurgePricingAnalyzer.analyze, SurgePricingAnalyzer.new,
    SurgePricingAnalyzer.detect_level, SurgePricingAnalyzer.calculate_trend]

/-- C5: on a valid cache hit holding a fee `f ≥ 0`, `estimate_fee(n)` for
`n ≥ 1` with `f·n` in i64 range performs no fetch and returns the cached
fee with `is_surge_pricing = false`, `surge_percent = 100.0` and
`total_fee_stroops = f·n`, leaving the service state untouched; on a cache
miss with a non-negative fetched fee, the fee is written into the cache
slot (stamped now, with the cache's TTL) and appended to the history, the
fetch counter rises by exactly one, and any later call within the TTL hits
the cache and performs no further fetch. -/
theorem estimate_fee_cache_spec :
    (∀ (st : FeeServiceState) (fr : Except FeeError ℤ) (now : ℤ) (n : Nat)
      (f : ℤ),
      st.cache.get now = some f → 0 ≤ f → 1 ≤ n →
      -(2 ^ 63) ≤ f * (n : ℤ) → f * (n : ℤ) ≤ 2 ^ 63 - 1 →
      st.estimate_fee fr now n =
        (.ok { base_fee_stroops := f, operation_count := n,
               total_fee_stroops := f * (n : ℤ),
               total_fee_xlm := stroops_to_xlm (f * (n : ℤ)),
               is_surge_pricing := false, surge_percent := 100,
               fetched_at := now }, st)) ∧
    (∀ (st : FeeServiceState) (now : ℤ) (n : Nat) (f : ℤ),
      st.cache.get now = none → 0 ≤ f → 1 ≤ st.history.max_records →
      (st.estimate_fee (.ok f) now n).2.fetch_count = st.fetch_count + 1 ∧
      (st.estimate_fee (.ok f) now n).2.cache.data =
        some ⟨f, now, st.cache.ttl_seconds⟩ ∧
      (st.estimate_fee (.ok f) now n).2.history.latest =
        some ⟨f, now, "Horizon API"⟩ ∧
      (∀ (now2 : ℤ) (fr2 : Except FeeError ℤ) (n2 : Nat),
        now2 - now < st.cache.ttl_seconds →
        ((st.estimate_fee (.ok f) now n).2.estimate_fee fr2 now2 n2).2
          = (st.estimate_fee (.ok f) now n).2)) := by
  constructor
  · intro st fr now n f hget hf hn hlo hhi
    simp only [FeeServiceState.estimate_fee, hget]
    unfold FeeInfo.new
    rw [if_neg (by omega), if_neg (not_lt.mpr hf)]
    unfold i64_checked_mul
    rw [if_pos ⟨hlo, hhi⟩]
  · intro st now n f hget hf hcap
    have hset : st.cache.set f now =
        .ok { st.cache with data := some ⟨f, now, st.cache.ttl_seconds⟩ } := by
      unfold FeeCache.set CachedFeeData.new
      rw [if_neg (not_lt.mpr hf)]
    have hrec : FeeRecord.new f "Horizon API" now =
        .ok ⟨f, now, "Horizon API"⟩ := by
      unfold FeeRecord.new
      rw [if_neg (not_lt.mpr hf)]
    have hadd : ∃ hist, st.history.add f "Horizon API" now = .ok hist ∧
        hist.latest = some ⟨f, now, "Horizon API"⟩ := by
      unfold FeeHistory.add
      rw [hrec]
      refine ⟨_, rfl, ?_⟩
      unfold FeeHistory.latest
      dsimp only
      split
      · rename_i hover
        rcases hrecs : st.history.records with _ | ⟨a, l⟩
        · exfalso
          rw [hrecs] at hover
          simp at hover
          omega
        · simp [List.getLast?_concat]
      · exact List.getLast?_concat _
    obtain ⟨hist, haddEq, hlatest⟩ := hadd
    have hana : ∃ r a2, st.analyzer.analyze f = .ok (r, a2) := by
      unfold SurgePricingAnalyzer.analyze
      rw [if_neg (not_lt.mpr hf)]
      exact ⟨_, _, rfl⟩
    obtain ⟨r, a2, hanaEq⟩ := hana
    have hst1 : (st.estimate_fee (.ok f) now n).2 =
        { cache := { st.cache with
            data := some ⟨f, now, st.cache.ttl_seconds⟩ },
          history := hist, analyzer := a2,
          fetch_count := st.fetch_count + 1 } := by
      simp only [FeeServiceState.estimate_fee, hget,
        FeeServiceState.fetch_and_cache_fee, hset, haddEq, hanaEq]
    refine ⟨by rw [hst1], by rw [hst1], by rw [hst1]; exact hlatest, ?_⟩
    intro now2 fr2 n2 hlt
    rw [hst1]
    have hget2 : FeeCache.get
        { st.cache with data := some ⟨f, now, st.cache.ttl_seconds⟩ } now2
        = some f := by
      unfold FeeCache.get CachedFeeData.is_valid
      simp [hlt]
    simp [FeeServiceState.estimate_fee, hget2]

/-- Witness for `estimate_fee_cache_spec`: a service whose cache holds fee
100 stamped at time 0 with a 300 s TTL, asked at time 10 for 2 operations,
answers 200 stroops total from the cache. -/
theorem estimate_fee_cache_spec_witness :
    ({ cache := { data := some ⟨100, 0, 300⟩, ttl_seconds := 300 },
       history := FeeHistory.new 1000,
       analyzer := SurgePricingAnalyzer.new SurgePricingConfig.default,
       fetch_count := 0 } : FeeServiceState).estimate_fee
        (.error (.Timeout)) 10 2 =
      (.ok { base_fee_stroops := 100, operation_count := 2,
             total_fee_stroops := 200, total_fee_xlm := stroops_to_xlm 200,
             is_surge_pricing := false, surge_percent := 100,
             fetched_at := 10 },
       { cache := { data := some ⟨100, 0, 300⟩, ttl_seconds := 300 },
         history := FeeHistory.new 1000,
         analyzer := SurgePricingAnalyzer.new SurgePricingConfig.default,
         fetch_count := 0 }) := by
  have h := estimate_fee_cache_spec.1
    { cache := { data := some ⟨100, 0, 300⟩, ttl_seconds := 300 },
      history := FeeHistory.new 1000,
      analyzer := SurgePricingAnalyzer.new SurgePricingConfig.default,
      fetch_count := 0 } (.error (.Timeout)) 10 2 100
    (by norm_num [FeeCache.get, CachedFeeData.is_valid]) (by norm_num)
    (by norm_num) (by norm_num) (by norm_num)
  simpa using h

/-- C4 (amended): `estimate_fee(0)` always returns an error; when the
cache holds a valid fee no fetch happens (the state is untouched), but on
a cache miss the fetcher *is* invoked once before the error surfaces —
the validation lives in `FeeInfo::new`, which only runs after
`fetch_and_cache_fee` on the miss path. -/
theorem estimate_fee_zero_ops_spec (st : FeeServiceState)
    (fr : Except FeeError ℤ) (now : ℤ) :
    (∃ e, (st.estimate_fee fr now 0).1 = .error e) ∧
    ((∃ f, st.cache.get now = some f) → (st.estimate_fee fr now 0).2 = st) ∧
    (st.cache.get now = none →
      (st.estimate_fee fr now 0).2.fetch_count = st.fetch_count + 1) := by
  cases hget : st.cache.get now with
  | some f =>
    refine ⟨⟨.InvalidOperationCount "operation_count must be at least 1", ?_⟩,
      fun _ => ?_, fun h => Option.noConfusion h⟩
    · simp only [FeeServiceState.estimate_fee, hget]
      unfold FeeInfo.new
      rw [if_pos rfl]
    · simp only [FeeServiceState.estimate_fee, hget]
  | none =>
    have herr : ∃ e, (st.estimate_fee fr now 0).1 = .error e := by
      cases fr with
      | error e =>
        exact ⟨e, by simp [FeeServiceState.estimate_fee, hget,
          FeeServiceState.fetch_and_cache_fee]⟩
      | ok f =>
        by_cases hf : f < 0
        · refine ⟨.InvalidFeeValue "base_fee_stroops cannot be negative", ?_⟩
          simp [FeeServiceState.estimate_fee, hget,
            FeeServiceState.fetch_and_cache_fee, FeeCache.set,
            CachedFeeData.new, hf]
        · refine ⟨.InvalidOperationCount "operation_count must be at least 1",
            ?_⟩
          have hset : st.cache.set f now = .ok
              { st.cache with data := some ⟨f, now, st.cache.ttl_seconds⟩ } := by
            unfold FeeCache.set CachedFeeData.new
            rw [if_neg hf]
          have hrec : FeeRecord.new f "Horizon API" now =
              .ok ⟨f, now, "Horizon API"⟩ := by
            unfold FeeRecord.new
            rw [if_neg hf]
          have hadd : ∃ hist,
              st.history.add f "Horizon API" now = .ok hist := by
            unfold FeeHistory.add
            rw [hrec]
            exact ⟨_, rfl⟩
          obtain ⟨hist, haddEq⟩ := hadd
          have hana : ∃ r a2, st.analyzer.analyze f = .ok (r, a2) := by
            unfold SurgePricingAnalyzer.analyze
            rw [if_neg hf]
            exact ⟨_, _, rfl⟩
          obtain ⟨r, a2, hanaEq⟩ := hana
          simp only [FeeServiceState.estimate_fee, hget,
            FeeServiceState.fetch_and_cache_fee, hset, haddEq, hanaEq]
          unfold FeeInfo.new
          rw [if_pos rfl]
    refine ⟨herr, fun hex => Option.noConfusion hex.choose_spec, fun _ => ?_⟩
    cases fr with
    | error e =>
      simp [FeeServiceState.estimate_fee, hget,
        FeeServiceState.fetch_and_cache_fee]
    | ok f =>
      by_cases hf : f < 0
      · simp [FeeServiceState.estimate_fee, hget,
          FeeServiceState.fetch_and_cache_fee, FeeCache.set,
          CachedFeeData.new, hf]
      · have hset : st.cache.set f now = .ok
            { st.cache with data := some ⟨f, now, st.cache.ttl_seconds⟩ } := by
          unfold FeeCache.set CachedFeeData.new
          rw [if_neg hf]
        have hrec : FeeRecord.new f "Horizon API" now =
            .ok ⟨f, now, "Horizon API"⟩ := by
          unfold FeeRecord.new
          rw [if_neg hf]
        have hadd : ∃ hist, st.history.add f "Horizon API" now = .ok hist := by
          unfold FeeHistory.add
          rw [hrec]
          exact ⟨_, rfl⟩
        obtain ⟨hist, haddEq⟩ := hadd
        have hana : ∃ r a2, st.analyzer.analyze f = .ok (r, a2) := by
          unfold SurgePricingAnalyzer.analyze
          rw [if_neg hf]
          exact ⟨_, _, rfl⟩
        obtain ⟨r, a2, hanaEq⟩ := hana
        simp only [FeeServiceState.estimate_fee, hget,
          FeeServiceState.fetch_and_cache_fee, hset, haddEq, hanaEq]

/-- Witness for `estimate_fee_zero_ops_spec`: a fresh service (empty cache)
asked for 0 operations reports an error, with the fetch counter moved from
0 to 1. -/
theorem estimate_fee_zero_ops_spec_witness :
    (∃ e, ((FeeServiceState.new 300 1000).estimate_fee (.ok 100) 0 0).1 =
      .error e) ∧
    ((FeeServiceState.new 300 1000).estimate_fee (.ok 100) 0 0).2.fetch_count
      = 1 := by
  have h := estimate_fee_zero_ops_spec (FeeServiceState.new 300 1000)
    (.ok 100) 0
  exact ⟨h.1, h.2.2 rfl⟩

/-- C4 counterexample: on a fresh service (cache miss) the call
`estimate_fee(0)` invokes the external fetcher once — the invocation count
moves from 0 to 1, not 0 — before the zero-operation-count error is
returned, contradicting "the fetcher is never invoked when
operation_count is 0". -/
theorem estimate_fee_zero_ops_counterexample :
    ((FeeServiceState.new 300 1000).estimate_fee (.ok 100) 0 0).2.fetch_count
      = 1 ∧
    (1 : Nat) ≠ 0 ∧
    ((FeeServiceState.new 300 1000).estimate_fee (.ok 100) 0 0).1 =
      .error (.InvalidOperationCount "operation_count must be at least 1") := by
  refine ⟨?_, by norm_num, ?_⟩ <;>
    norm_num [FeeServiceState.new, FeeServiceState.estimate_fee,
      FeeServiceState.fetch_and_cache_fee, FeeCache.new, FeeCache.get,
      FeeCache.set, CachedFeeData.new, FeeHistory.new, FeeHistory.add,
      FeeRecord.new, SurgePricingAnalyzer.new, SurgePricingAnalyzer.analyze,
      SurgePricingConfig.default, SurgePricingAnalyzer.detect_level,
      SurgePricingAnalyzer.calculate_trend, FeeInfo.new, i64_checked_mul]

/-- C9: every `get` either hits — returning the stored value and bumping
the hit counter by exactly one, misses untouched — or misses (also when
every entry for the key is past its TTL, which lookup treats as absent) —
returning `CacheError "Cache miss"` and bumping the miss counter by
exactly one, hits untouched; every operation other than `reset_stats`
leaves both counters non-decreasing (so they are monotone along any
operation sequence avoiding `reset_stats`), and `reset_stats` is the
operation that zeroes them. -/
theorem response_cache_counters (α : Type) :
    (∀ (c : ResponseCache α) (key : String) (now : ℤ),
      (∃ v, c.lookup key now = some v ∧
        (c.get key now).1 = .ok v ∧
        (c.get key now).2.hits = c.hits + 1 ∧
        (c.get key now).2.misses = c.misses) ∨
      (c.lookup key now = none ∧
        (c.get key now).1 = .error (.CacheError "Cache miss") ∧
        (c.get key now).2.hits = c.hits ∧
        (c.get key now).2.misses = c.misses + 1)) ∧
    (∀ (c : ResponseCache α) (key : String) (now : ℤ),
      (∀ e ∈ c.entries, e.1 = key → c.ttl ≤ now - e.2.2) →
      (c.get key now).1 = .error (.CacheError "Cache miss") ∧
      (c.get key now).2.misses = c.misses + 1) ∧
    (∀ (c : ResponseCache α) (op : CacheOp α), op ≠ .reset_stats →
      c.hits ≤ (op.apply c).hits ∧ c.misses ≤ (op.apply c).misses) ∧
    (∀ c : ResponseCache α,
      (CacheOp.reset_stats.apply c).hits = 0 ∧
      (CacheOp.reset_stats.apply c).misses = 0) := by
  have hdichotomy : ∀ (c : ResponseCache α) (key : String) (now : ℤ),
      (∃ v, c.lookup key now = some v ∧
        (c.get key now).1 = .ok v ∧
        (c.get key now).2.hits = c.hits + 1 ∧
        (c.get key now).2.misses = c.misses) ∨
      (c.lookup key now = none ∧
        (c.get key now).1 = .error (.CacheError "Cache miss") ∧
        (c.get key now).2.hits = c.hits ∧
        (c.get key now).2.misses = c.misses + 1) := by
    intro c key now
    cases hl : c.lookup key now with
    | some v =>
      exact Or.inl ⟨v, rfl, by simp [ResponseCache.get, hl]⟩
    | none =>
      exact Or.inr ⟨rfl, by simp [ResponseCache.get, hl]⟩
  refine ⟨hdichotomy, ?_, ?_, fun _ => ⟨rfl, rfl⟩⟩
  · intro c key now hexp
    have hl : c.lookup key now = none := by
      have hf : List.find? (fun e => decide (e.1 = key ∧ now - e.2.2 < c.ttl))
          c.entries = none := by
        rw [List.find?_eq_none]
        intro e he
        simp only [decide_eq_true_eq, not_and]
        intro hk
        exact not_lt.mpr (hexp e he hk)
      unfold ResponseCache.lookup
      rw [hf]
      rfl
    exact ⟨by simp [ResponseCache.get, hl], by simp [ResponseCache.get, hl]⟩
  · intro c op hne
    cases op with
    | get key now =>
      rcases hdichotomy c key now with ⟨v, _, _, hh, hm⟩ | ⟨_, _, hh, hm⟩ <;>
        simp only [CacheOp.apply] <;> omega
    | set key value now => exact ⟨le_refl _, le_refl _⟩
    | clear => exact ⟨le_refl _, le_refl _⟩
    | reset_stats => exact absurd rfl hne

/-- Witness for `response_cache_counters`: a `get` on a fresh cache (a
non-`reset_stats` operation) leaves both counters no smaller. -/
theorem response_cache_counters_witness :
    (ResponseCache.new 60 : ResponseCache ℤ).hits ≤
      ((CacheOp.get "k" 0 : CacheOp ℤ).apply (ResponseCache.new 60)).hits ∧
    (ResponseCache.new 60 : ResponseCache ℤ).misses ≤
      ((CacheOp.get "k" 0 : CacheOp ℤ).apply (ResponseCache.new 60)).misses :=
  (response_cache_counters ℤ).2.2.1 (ResponseCache.new 60) (.get "k" 0)
    (fun h => nomatch h)

end StellarAid
